import Mathlib

/-!
Verification of the geolocation / peer-selection core of the chiral-network
repository. The region classifier (`src/lib/services/geolocation.ts`) is
embedded directly from the source; components whose implementation files are
not part of the provided sources (the region catalogue `$lib/geo`, the
reputation service, the signaling server, the download coordinator) are
modelled from the specification, as indicated on each definition.
-/

namespace Chiral

open Real

/-- Region record `{id, name, lat, lng}` from the catalogue (`GeoRegionConfig`
in the source). Coordinates are modelled as real numbers. -/
structure GeoRegionConfig where
  id : String
  name : String
  lat : ℝ
  lng : ℝ

/-- Modelled from the spec: the designated unknown/fallback sentinel id of the
region catalogue (`UNKNOWN_REGION_ID` from `$lib/geo`, whose source file is not
in the provided sources). -/
def UNKNOWN_REGION_ID : String := "unknown"

/-- Modelled from the spec: catalogue entry for the US East region. The
catalogue `GEO_REGIONS` lives in `$lib/geo`, which is not among the provided
sources; ids are those referenced by `geolocation.ts`, reference coordinates
are representative values (Ashburn). -/
def usEastRegion : GeoRegionConfig := ⟨"usEast", "US East", 39.0438, -77.4874⟩

/-- Modelled from the spec: catalogue entry for the US West region (San
Francisco reference point). -/
def usWestRegion : GeoRegionConfig := ⟨"usWest", "US West", 37.7749, -122.4194⟩

/-- Modelled from the spec: catalogue entry for the EU West region (London). -/
def euWestRegion : GeoRegionConfig := ⟨"euWest", "EU West", 51.5074, -0.1278⟩

/-- Modelled from the spec: catalogue entry for the EU Central region
(Frankfurt). -/
def euCentralRegion : GeoRegionConfig := ⟨"euCentral", "EU Central", 50.1109, 8.6821⟩

/-- Modelled from the spec: catalogue entry for the Asia Pacific region
(Singapore). -/
def asiaPacificRegion : GeoRegionConfig := ⟨"asiaPacific", "Asia Pacific", 1.3521, 103.8198⟩

/-- Modelled from the spec: catalogue entry for the Asia East region (Tokyo). -/
def asiaEastRegion : GeoRegionConfig := ⟨"asiaEast", "Asia East", 35.6762, 139.6503⟩

/-- Modelled from the spec: catalogue entry for the South America region
(Sao Paulo). -/
def southAmericaRegion : GeoRegionConfig := ⟨"southAmerica", "South America", -23.5505, -46.6333⟩

/-- Modelled from the spec: catalogue entry for the Oceania region (Sydney). -/
def oceaniaRegion : GeoRegionConfig := ⟨"oceania", "Oceania", -33.8688, 151.2093⟩

/-- Modelled from the spec: catalogue entry for the Africa region (Nairobi). -/
def africaRegion : GeoRegionConfig := ⟨"africa", "Africa", -1.2921, 36.8219⟩

/-- Modelled from the spec: the unknown sentinel catalogue entry, excluded
from distance-based matching. -/
def unknownRegion : GeoRegionConfig := ⟨UNKNOWN_REGION_ID, "Unknown", 0, 0⟩

/-- Modelled from the spec: the fixed region catalogue `GEO_REGIONS` (static
list of `{id, name, lat, lng}` plus the unknown sentinel). -/
def GEO_REGIONS : List GeoRegionConfig :=
  [usEastRegion, usWestRegion, euWestRegion, euCentralRegion, asiaPacificRegion,
   asiaEastRegion, southAmericaRegion, oceaniaRegion, africaRegion, unknownRegion]

/-- `REGION_CANDIDATES` from `geolocation.ts`: the catalogue without the
unknown sentinel. -/
def REGION_CANDIDATES : List GeoRegionConfig :=
  GEO_REGIONS.filter (fun region => region.id != UNKNOWN_REGION_ID)

/-- `FALLBACK_REGION` from `geolocation.ts`: the candidate with id `usEast`,
or the first candidate if absent (`??` modelled by the `none` branch). -/
def FALLBACK_REGION : GeoRegionConfig :=
  match REGION_CANDIDATES.find? (fun region => region.id == "usEast") with
  | some region => region
  | none => REGION_CANDIDATES.headD unknownRegion

/-- `toRadians` from `geolocation.ts`. -/
noncomputable def toRadians (value : ℝ) : ℝ := value * Real.pi / 180

/-- Real-number model of JavaScript `Math.atan2` (restricted to the reals;
the code only calls it with nonnegative arguments). -/
noncomputable def atan2 (y x : ℝ) : ℝ :=
  if 0 < x then Real.arctan (y / x)
  else if x < 0 then
    (if 0 ≤ y then Real.arctan (y / x) + Real.pi else Real.arctan (y / x) - Real.pi)
  else if 0 < y then Real.pi / 2
  else if y < 0 then -(Real.pi / 2)
  else 0

/-- The intermediate quantity `a` of `haversineDistance` in `geolocation.ts`. -/
noncomputable def havA (lat1 lng1 lat2 lng2 : ℝ) : ℝ :=
  Real.sin (toRadians (lat2 - lat1) / 2) * Real.sin (toRadians (lat2 - lat1) / 2) +
    Real.cos (toRadians lat1) * Real.cos (toRadians lat2) *
      Real.sin (toRadians (lng2 - lng1) / 2) * Real.sin (toRadians (lng2 - lng1) / 2)

/-- `haversineDistance` from `geolocation.ts` (Earth radius 6371 km,
`c = 2 * atan2(sqrt a, sqrt (1 - a))`, result `R * c`). -/
noncomputable def haversineDistance (lat1 lng1 lat2 lng2 : ℝ) : ℝ :=
  6371 * (2 * atan2 (Real.sqrt (havA lat1 lng1 lat2 lng2))
    (Real.sqrt (1 - havA lat1 lng1 lat2 lng2)))

/-- `calculateRegionDistance` from `geolocation.ts`. -/
noncomputable def calculateRegionDistance (a b : GeoRegionConfig) : ℝ :=
  haversineDistance a.lat a.lng b.lat b.lng

/-- The distance computed by the loop body of `nearestRegion`, coerced into
`EReal` so that the loop's `Number.POSITIVE_INFINITY` initial bound is `⊤`. -/
noncomputable def regionDist (lat lng : ℝ) (r : GeoRegionConfig) : EReal :=
  ((haversineDistance lat lng r.lat r.lng : ℝ) : EReal)

/-- The accumulation loop of `nearestRegion` from `geolocation.ts`: walks the
candidate list keeping the closest region so far and its distance
(`minDistance`, initially positive infinity, updated on strict improvement). -/
noncomputable def nearestGo (lat lng : ℝ) :
    List GeoRegionConfig → GeoRegionConfig → EReal → GeoRegionConfig
  | [], closest, _ => closest
  | r :: rest, closest, minD =>
    if regionDist lat lng r < minD then nearestGo lat lng rest r (regionDist lat lng r)
    else nearestGo lat lng rest closest minD

/-- `nearestRegion` from `geolocation.ts`. -/
noncomputable def nearestRegion (lat lng : ℝ) : GeoRegionConfig :=
  nearestGo lat lng REGION_CANDIDATES FALLBACK_REGION ⊤

/-- Lowercasing used by `inferRegionFromTimezone` (`timezone.toLowerCase()`),
modelled characterwise. -/
def lowerStr (s : String) : String := String.mk (s.data.map Char.toLower)

/-- Substring check on character lists; models an unanchored regex `test` of a
literal pattern. -/
def hasSubSeq (p : List Char) : List Char → Bool
  | [] => p.isEmpty
  | c :: rest => List.isPrefixOf p (c :: rest) || hasSubSeq p rest

/-- A regex of the shape `x\/(a|b|...)` used in the matcher table tests
whether any of the literal alternatives occurs in the input. -/
def testAny (pats : List String) (tz : String) : Bool :=
  pats.any (fun p => hasSubSeq p.data tz.data)

/-- One entry of the ordered matcher table of `inferRegionFromTimezone`:
a pattern predicate and the region id it maps to. -/
structure Matcher where
  test : String → Bool
  regionId : String

/-- Pattern list of the US West matcher in `inferRegionFromTimezone`. -/
def usWestPats : List String :=
  ["america/los_angeles", "america/vancouver", "america/whitehorse", "america/sitka",
   "america/anchorage", "america/metlakatla", "america/juneau", "america/yakutat",
   "america/tijuana", "america/phoenix", "america/boise", "america/denver",
   "america/edmonton", "america/dawson", "america/hermosillo", "america/mazatlan",
   "america/yellowknife", "america/dawson_creek"]

/-- Pattern list of the South America matcher (checked before the generic
America catch-all). -/
def southAmericaPats : List String :=
  ["america/argentina", "america/buenos_aires", "america/santiago", "america/sao_paulo",
   "america/bogota", "america/lima", "america/la_paz", "america/montevideo",
   "america/caracas", "america/asuncion", "america/guayaquil", "america/fortaleza",
   "america/bahia", "america/recife", "america/belem", "america/manaus",
   "america/cuiaba", "america/porto_velho", "america/campo_grande", "america/rio_branco",
   "america/maceio", "america/cayenne", "america/paramaribo", "america/bogota"]

/-- Pattern list of the EU Central matcher. -/
def euCentralPats : List String :=
  ["europe/berlin", "europe/vienna", "europe/warsaw", "europe/prague", "europe/budapest",
   "europe/zurich", "europe/amsterdam", "europe/brussels", "europe/stockholm",
   "europe/oslo", "europe/copenhagen", "europe/rome", "europe/madrid", "europe/paris",
   "europe/prague", "europe/bucharest", "europe/sofia", "europe/athens",
   "europe/helsinki", "europe/tallinn", "europe/riga", "europe/vilnius",
   "europe/belgrade", "europe/zagreb", "europe/ljubljana", "europe/sarajevo",
   "europe/skopje", "europe/kiev", "europe/moscow", "europe/minsk"]

/-- Pattern list of the EU West matcher. -/
def euWestPats : List String :=
  ["europe/london", "europe/dublin", "europe/lisbon", "europe/reykjavik",
   "europe/isle_of_man", "europe/jersey", "europe/guernsey"]

/-- Pattern list of the Asia East matcher. -/
def asiaEastPats : List String :=
  ["asia/tokyo", "asia/seoul", "asia/shanghai", "asia/chongqing", "asia/hong_kong",
   "asia/taipei", "asia/macau", "asia/harbin", "asia/urumqi", "asia/pyongyang"]

/-- Pattern list of the Asia Pacific matcher. -/
def asiaPacificPats : List String :=
  ["asia/singapore", "asia/kuala_lumpur", "asia/jakarta", "asia/manila",
   "asia/ho_chi_minh", "asia/bangkok", "asia/yangon", "asia/phnom_penh",
   "asia/vientiane", "asia/calcutta", "asia/kolkata", "asia/mumbai", "asia/delhi",
   "asia/bangalore", "asia/chennai", "asia/kathmandu", "asia/dhaka", "asia/colombo",
   "asia/karachi", "asia/kabul", "asia/tehran", "asia/dubai", "asia/riyadh",
   "asia/bahrain", "asia/qatar", "asia/muscat", "asia/kuwait"]

/-- Pattern list of the specific Oceania matcher: the alternation
`(australia|pacific)\/(city|...)` expanded into its literal alternatives. -/
def oceaniaPats : List String :=
  ["australia/sydney", "australia/melbourne", "australia/brisbane", "australia/perth",
   "australia/adelaide", "australia/hobart", "australia/darwin", "australia/auckland",
   "australia/wellington", "australia/fiji", "australia/guam", "australia/port_moresby",
   "australia/noumea", "australia/tahiti", "australia/honolulu",
   "pacific/sydney", "pacific/melbourne", "pacific/brisbane", "pacific/perth",
   "pacific/adelaide", "pacific/hobart", "pacific/darwin", "pacific/auckland",
   "pacific/wellington", "pacific/fiji", "pacific/guam", "pacific/port_moresby",
   "pacific/noumea", "pacific/tahiti", "pacific/honolulu"]

/-- Pattern list of the specific Africa matcher. -/
def africaPats : List String :=
  ["africa/cairo", "africa/johannesburg", "africa/lagos", "africa/nairobi",
   "africa/casablanca", "africa/algiers", "africa/tunis", "africa/accra",
   "africa/addis_ababa", "africa/khartoum", "africa/dar_es_salaam", "africa/kampala",
   "africa/harare", "africa/lusaka", "africa/maputo", "africa/kinshasa",
   "africa/luanda", "africa/windhoek", "africa/gaborone", "africa/cape_town"]

/-- The ordered matcher table of `inferRegionFromTimezone` from
`geolocation.ts` (order matters: specific matchers before catch-alls). -/
def matchers : List Matcher :=
  [⟨testAny usWestPats, "usWest"⟩,
   ⟨testAny southAmericaPats, "southAmerica"⟩,
   ⟨testAny ["america/"], "usEast"⟩,
   ⟨testAny euCentralPats, "euCentral"⟩,
   ⟨testAny euWestPats, "euWest"⟩,
   ⟨testAny ["europe/"], "euCentral"⟩,
   ⟨testAny asiaEastPats, "asiaEast"⟩,
   ⟨testAny asiaPacificPats, "asiaPacific"⟩,
   ⟨testAny ["indian/"], "asiaPacific"⟩,
   ⟨testAny ["asia/"], "asiaPacific"⟩,
   ⟨testAny oceaniaPats, "oceania"⟩,
   ⟨testAny ["australia/", "pacific/"], "oceania"⟩,
   ⟨testAny africaPats, "africa"⟩,
   ⟨testAny ["africa/"], "africa"⟩,
   ⟨testAny ["atlantic/azores"], "euWest"⟩,
   ⟨testAny ["atlantic/bermuda"], "usEast"⟩,
   ⟨testAny ["atlantic/"], "euWest"⟩]

/-- The matcher loop of `inferRegionFromTimezone`: on a pattern match, look
the rule's region id up in the candidate catalogue; return it if found,
otherwise keep scanning; return `none` when the table is exhausted. -/
def matchLoop : List Matcher → String → Option GeoRegionConfig
  | [], _ => none
  | m :: rest, tz =>
    if m.test tz then
      match REGION_CANDIDATES.find? (fun item => item.id == m.regionId) with
      | some region => some region
      | none => matchLoop rest tz
    else matchLoop rest tz

/-- `inferRegionFromTimezone` from `geolocation.ts`. -/
def inferRegionFromTimezone (timezone : String) : Option GeoRegionConfig :=
  matchLoop matchers (lowerStr timezone)

/-- Canonical IANA identifiers of the South-American cities named by the
specific South-America matcher rule. -/
def southAmericaIds : List String :=
  ["America/Argentina/Buenos_Aires", "America/Santiago", "America/Sao_Paulo",
   "America/Bogota", "America/Lima", "America/La_Paz", "America/Montevideo",
   "America/Caracas", "America/Asuncion", "America/Guayaquil", "America/Fortaleza",
   "America/Manaus", "America/Recife", "America/Cayenne", "America/Paramaribo"]

/-- Canonical IANA identifiers of the East-Asian cities named by the specific
Asia-East matcher rule. -/
def asiaEastIds : List String :=
  ["Asia/Tokyo", "Asia/Seoul", "Asia/Shanghai", "Asia/Chongqing", "Asia/Hong_Kong",
   "Asia/Taipei", "Asia/Macau", "Asia/Harbin", "Asia/Urumqi", "Asia/Pyongyang"]

/-- `GeolocationSource` from `geolocation.ts`. -/
inductive GeolocationSource where
  | browser
  | timezone
  | fallback
deriving DecidableEq

/-- `GeolocationResult` from `geolocation.ts`. -/
structure GeolocationResult where
  region : GeoRegionConfig
  source : GeolocationSource

/-- `detectUserRegion` from `geolocation.ts`, with the two asynchronous
browser probes abstracted into their observable outcomes: `coords` is the
browser geolocation fix when `detectFromBrowserGeolocation` succeeds (it
returns `nearestRegion` of the fix, `null` on unavailability or error), and
`tzId` is the IANA timezone id when `Intl` provides one. -/
noncomputable def detectUserRegion (coords : Option (ℝ × ℝ)) (tzId : Option String) :
    GeolocationResult :=
  match coords with
  | some (lat, lng) => ⟨nearestRegion lat lng, GeolocationSource.browser⟩
  | none =>
    match tzId with
    | some tz =>
      match inferRegionFromTimezone tz with
      | some region => ⟨region, GeolocationSource.timezone⟩
      | none => ⟨FALLBACK_REGION, GeolocationSource.fallback⟩
    | none => ⟨FALLBACK_REGION, GeolocationSource.fallback⟩

/-- Transfer outcome fed into the reputation store (spec section 4.2). -/
inductive TransferOutcome where
  | success
  | failure
  | timeout
deriving DecidableEq

/-- Modelled from the spec: one `record` step of the Reputation Store
(`src/lib/services/reputationService.ts` is not among the provided sources).
Success moves the score toward 1 by a fixed fractional step
`new = old + α·(1 − old)` with `α = 1/10`; failure moves it toward 0 by a
larger fractional step (`1/5` of the score); timeout moves it toward 0 by a
smaller fractional step (`1/10` of the score) than failure. -/
def recordOutcome (s : ℚ) : TransferOutcome → ℚ
  | TransferOutcome.success => s + (1 / 10) * (1 - s)
  | TransferOutcome.failure => s - (1 / 5) * s
  | TransferOutcome.timeout => s - (1 / 10) * s

/-- Modelled from the spec: the neutral default score of a fresh entry. -/
def NEUTRAL_SCORE : ℚ := 1 / 2

/-- Modelled from the spec: the score of a peer after a finite sequence of
recorded outcomes, starting from the neutral default. -/
def runOutcomes (evs : List TransferOutcome) : ℚ :=
  evs.foldl recordOutcome NEUTRAL_SCORE

/-- Modelled from the spec: connected-client set of the rendezvous server. -/
structure ServerState where
  clients : List String

/-- Modelled from the spec: a client-to-server message on the rendezvous
channel, either directed (`{to, type, data}`) or broadcast. -/
inductive ClientMsg where
  | directed (dest : String) (ty : String) (data : String)
  | broadcast (ty : String) (payload : String)

/-- Modelled from the spec: the set of clients the rendezvous server relays a
message to (`src/lib/services/server/server.cjs` is not among the provided
sources). A directed message goes only to the client whose id equals the `to`
field; a broadcast goes to every other connected client, never back to the
sender. -/
def deliveryTargets (st : ServerState) (sender : String) : ClientMsg → List String
  | ClientMsg.directed dest _ _ => st.clients.filter (fun c => c == dest)
  | ClientMsg.broadcast _ _ => st.clients.filter (fun c => c != sender)

/-- Modelled from the spec: per-chunk state of a download task. -/
inductive ChunkStatus where
  | pending
  | inFlight (peer : String) (startedAt : ℕ)
  | completed
  | failed
deriving DecidableEq

/-- Modelled from the spec: the coordinator state relevant to timeout
handling (`src/lib/services/multiSourceDownloadService.ts` is not among the
provided sources): chunk states, the shared reputation map, and the in-flight
deadline. -/
structure CoordState where
  chunks : List ChunkStatus
  rep : String → ℚ
  deadline : ℕ

/-- Modelled from the spec: timeout handling of the coordinator. If chunk `i`
is in flight and its deadline has elapsed at `now`, the chunk returns to
`Pending` and the assignee's reputation receives `record(peer, Timeout)`;
otherwise the state is unchanged. -/
def onChunkTimeout (st : CoordState) (i : ℕ) (now : ℕ) : CoordState :=
  match st.chunks[i]? with
  | some (ChunkStatus.inFlight p t0) =>
    if t0 + st.deadline ≤ now then
      { st with
        chunks := st.chunks.set i ChunkStatus.pending,
        rep := fun q => if q = p then recordOutcome (st.rep q) TransferOutcome.timeout
                        else st.rep q }
    else st
  | _ => st

/-- Modelled from the spec: one comparison step of candidate ranking — keep
the better-reputed of the best-so-far and the next peer (first wins ties). -/
def pickBetter (rep : String → ℚ) (best : Option String) (q : String) : Option String :=
  match best with
  | none => some q
  | some b => if rep b < rep q then some q else best

/-- Modelled from the spec: the highest-ranked candidate among the eligible
peers (ranking key: reputation score, descending; first wins ties). -/
def selectBest (rep : String → ℚ) (peers : List String) : Option String :=
  peers.foldl (pickBetter rep) none

/-- Modelled from the spec: one assignment pass of the coordinator — every
`Pending` chunk is assigned to the highest-ranked eligible candidate (if any)
and becomes in flight, stamped with the pass time. -/
def assignPass (st : CoordState) (eligible : List String) (now : ℕ) : CoordState :=
  { st with
    chunks := st.chunks.map (fun c =>
      match c with
      | ChunkStatus.pending =>
        match selectBest st.rep eligible with
        | some q => ChunkStatus.inFlight q now
        | none => ChunkStatus.pending
      | other => other) }

/-! ### Lemmas about the haversine distance -/

lemma havA_symm (lat1 lng1 lat2 lng2 : ℝ) :
    havA lat1 lng1 lat2 lng2 = havA lat2 lng2 lat1 lng1 := by
  unfold havA toRadians
  have h1 : (lat1 - lat2) * Real.pi / 180 / 2 = -((lat2 - lat1) * Real.pi / 180 / 2) := by ring
  have h2 : (lng1 - lng2) * Real.pi / 180 / 2 = -((lng2 - lng1) * Real.pi / 180 / 2) := by ring
  rw [h1, h2]
  simp only [Real.sin_neg]
  ring

lemma haversine_symm (lat1 lng1 lat2 lng2 : ℝ) :
    haversineDistance lat1 lng1 lat2 lng2 = haversineDistance lat2 lng2 lat1 lng1 := by
  unfold haversineDistance
  rw [havA_symm lat2 lng2 lat1 lng1]

lemma atan2_zero_one : atan2 0 1 = 0 := by
  unfold atan2
  rw [if_pos one_pos]
  norm_num [Real.arctan_zero]

lemma havA_self (lat lng : ℝ) : havA lat lng lat lng = 0 := by
  unfold havA toRadians
  simp [sub_self]

lemma haversine_self (lat lng : ℝ) : haversineDistance lat lng lat lng = 0 := by
  unfold haversineDistance
  rw [havA_self]
  simp [atan2_zero_one]

lemma atan2_pos_of_pos (y x : ℝ) (hy : 0 < y) (hx : 0 ≤ x) : 0 < atan2 y x := by
  unfold atan2
  rcases lt_or_eq_of_le hx with h | h
  · rw [if_pos h]
    have harc : Real.arctan 0 < Real.arctan (y / x) :=
      Real.arctan_strictMono (div_pos hy h)
    rw [Real.arctan_zero] at harc
    exact harc
  · rw [if_neg (by rw [← h]; exact lt_irrefl 0), if_neg (by rw [← h]; exact lt_irrefl 0),
      if_pos hy]
    linarith [Real.pi_pos]

lemma haversine_pos (lat1 lng1 lat2 lng2 : ℝ)
    (h1a : -90 ≤ lat1) (h1b : lat1 ≤ 90) (h2a : -90 ≤ lat2) (h2b : lat2 ≤ 90)
    (hne : lat1 ≠ lat2) : 0 < haversineDistance lat1 lng1 lat2 lng2 := by
  have hπ := Real.pi_pos
  have hθval : toRadians (lat2 - lat1) / 2 = (lat2 - lat1) * (Real.pi / 360) := by
    unfold toRadians; ring
  have hub : (lat2 - lat1) * (Real.pi / 360) ≤ 180 * (Real.pi / 360) := by
    apply mul_le_mul_of_nonneg_right (by linarith) (by positivity)
  have hlb : (-180 : ℝ) * (Real.pi / 360) ≤ (lat2 - lat1) * (Real.pi / 360) := by
    apply mul_le_mul_of_nonneg_right (by linarith) (by positivity)
  have hθlt : toRadians (lat2 - lat1) / 2 < Real.pi := by
    rw [hθval]; nlinarith
  have hθgt : -Real.pi < toRadians (lat2 - lat1) / 2 := by
    rw [hθval]; nlinarith
  have hθne : toRadians (lat2 - lat1) / 2 ≠ 0 := by
    rw [hθval]
    exact mul_ne_zero (sub_ne_zero.mpr (Ne.symm hne)) (by positivity)
  have hsin : Real.sin (toRadians (lat2 - lat1) / 2) ≠ 0 := by
    intro h
    exact hθne ((Real.sin_eq_zero_iff_of_lt_of_lt hθgt hθlt).mp h)
  have hsq : 0 < Real.sin (toRadians (lat2 - lat1) / 2) *
      Real.sin (toRadians (lat2 - lat1) / 2) := mul_self_pos.mpr hsin
  have hc1 : 0 ≤ Real.cos (toRadians lat1) := by
    apply Real.cos_nonneg_of_mem_Icc
    constructor
    · unfold toRadians
      have : (-90 : ℝ) * (Real.pi / 180) ≤ lat1 * (Real.pi / 180) :=
        mul_le_mul_of_nonneg_right h1a (by positivity)
      nlinarith
    · unfold toRadians
      have : lat1 * (Real.pi / 180) ≤ 90 * (Real.pi / 180) :=
        mul_le_mul_of_nonneg_right h1b (by positivity)
      nlinarith
  have hc2 : 0 ≤ Real.cos (toRadians lat2) := by
    apply Real.cos_nonneg_of_mem_Icc
    constructor
    · unfold toRadians
      have : (-90 : ℝ) * (Real.pi / 180) ≤ lat2 * (Real.pi / 180) :=
        mul_le_mul_of_nonneg_right h2a (by positivity)
      nlinarith
    · unfold toRadians
      have : lat2 * (Real.pi / 180) ≤ 90 * (Real.pi / 180) :=
        mul_le_mul_of_nonneg_right h2b (by positivity)
      nlinarith
  have hrest : 0 ≤ Real.cos (toRadians lat1) * Real.cos (toRadians lat2) *
      Real.sin (toRadians (lng2 - lng1) / 2) * Real.sin (toRadians (lng2 - lng1) / 2) := by
    have heq : Real.cos (toRadians lat1) * Real.cos (toRadians lat2) *
        Real.sin (toRadians (lng2 - lng1) / 2) * Real.sin (toRadians (lng2 - lng1) / 2) =
        (Real.cos (toRadians lat1) * Real.cos (toRadians lat2)) *
        (Real.sin (toRadians (lng2 - lng1) / 2) * Real.sin (toRadians (lng2 - lng1) / 2)) := by
      ring
    rw [heq]
    exact mul_nonneg (mul_nonneg hc1 hc2) (mul_self_nonneg _)
  have ha : 0 < havA lat1 lng1 lat2 lng2 := by
    unfold havA
    exact add_pos_of_pos_of_nonneg hsq hrest
  have hsqrt : 0 < Real.sqrt (havA lat1 lng1 lat2 lng2) := Real.sqrt_pos.mpr ha
  have hatan : 0 < atan2 (Real.sqrt (havA lat1 lng1 lat2 lng2))
      (Real.sqrt (1 - havA lat1 lng1 lat2 lng2)) :=
    atan2_pos_of_pos _ _ hsqrt (Real.sqrt_nonneg _)
  unfold haversineDistance
  have h6371 : (0 : ℝ) < 6371 := by norm_num
  exact mul_pos h6371 (mul_pos two_pos hatan)

/-! ### Lemmas about the nearest-region loop -/

lemma region_candidates_eq : REGION_CANDIDATES =
    [usEastRegion, usWestRegion, euWestRegion, euCentralRegion, asiaPacificRegion,
     asiaEastRegion, southAmericaRegion, oceaniaRegion, africaRegion] := rfl

lemma fallback_eq : FALLBACK_REGION = usEastRegion := rfl

lemma usEast_mem_candidates : usEastRegion ∈ REGION_CANDIDATES := by
  rw [region_candidates_eq]
  exact List.mem_cons_self _ _

lemma nearestGo_min (lat lng : ℝ) (l : List GeoRegionConfig) :
    ∀ (c : GeoRegionConfig) (m : EReal), regionDist lat lng c ≤ m →
      regionDist lat lng (nearestGo lat lng l c m) ≤ m ∧
      ∀ r ∈ l, regionDist lat lng (nearestGo lat lng l c m) ≤ regionDist lat lng r := by
  induction l with
  | nil =>
    intro c m hc
    exact ⟨hc, by intro r hr; exact absurd hr (List.not_mem_nil r)⟩
  | cons r rest ih =>
    intro c m hc
    by_cases hlt : regionDist lat lng r < m
    · simp only [nearestGo, if_pos hlt]
      obtain ⟨h1, h2⟩ := ih r (regionDist lat lng r) le_rfl
      refine ⟨le_trans h1 (le_of_lt hlt), ?_⟩
      intro r' hr'
      rcases List.mem_cons.mp hr' with h | h
      · rw [h]; exact h1
      · exact h2 r' h
    · simp only [nearestGo, if_neg hlt]
      obtain ⟨h1, h2⟩ := ih c m hc
      refine ⟨h1, ?_⟩
      intro r' hr'
      rcases List.mem_cons.mp hr' with h | h
      · rw [h]; exact le_trans h1 (le_of_not_lt hlt)
      · exact h2 r' h

lemma nearestGo_first (lat lng : ℝ) (l : List GeoRegionConfig) :
    ∀ (c : GeoRegionConfig) (m : EReal),
      (nearestGo lat lng l c m = c ∧ ∀ r ∈ l, m ≤ regionDist lat lng r) ∨
      (∃ i, ∃ hi : i < l.length, l.get ⟨i, hi⟩ = nearestGo lat lng l c m ∧
        regionDist lat lng (nearestGo lat lng l c m) < m ∧
        ∀ j, ∀ hj : j < l.length, j < i →
          regionDist lat lng (nearestGo lat lng l c m) < regionDist lat lng (l.get ⟨j, hj⟩)) := by
  induction l with
  | nil =>
    intro c m
    exact Or.inl ⟨rfl, by intro r hr; exact absurd hr (List.not_mem_nil r)⟩
  | cons r rest ih =>
    intro c m
    by_cases hlt : regionDist lat lng r < m
    · simp only [nearestGo, if_pos hlt]
      rcases ih r (regionDist lat lng r) with ⟨heq, _⟩ | ⟨i, hi, hget, hlt', hprev⟩
      · refine Or.inr ⟨0, Nat.succ_pos _, ?_, ?_, ?_⟩
        · exact heq.symm
        · rw [heq]; exact hlt
        · intro j hj hj0
          exact absurd hj0 (Nat.not_lt_zero j)
      · refine Or.inr ⟨i + 1, Nat.succ_lt_succ hi, hget, lt_trans hlt' hlt, ?_⟩
        intro j hj hji
        cases j with
        | zero => exact hlt'
        | succ k =>
          exact hprev k (Nat.lt_of_succ_lt_succ hj) (Nat.lt_of_succ_lt_succ hji)
    · simp only [nearestGo, if_neg hlt]
      rcases ih c m with ⟨heq, hall⟩ | ⟨i, hi, hget, hlt', hprev⟩
      · refine Or.inl ⟨heq, ?_⟩
        intro r' hr'
        rcases List.mem_cons.mp hr' with h | h
        · rw [h]; exact le_of_not_lt hlt
        · exact hall r' h
      · refine Or.inr ⟨i + 1, Nat.succ_lt_succ hi, hget, hlt', ?_⟩
        intro j hj hji
        cases j with
        | zero => exact lt_of_lt_of_le hlt' (le_of_not_lt hlt)
        | succ k =>
          exact hprev k (Nat.lt_of_succ_lt_succ hj) (Nat.lt_of_succ_lt_succ hji)

lemma nearestRegion_first (lat lng : ℝ) :
    ∃ i, ∃ hi : i < REGION_CANDIDATES.length,
      REGION_CANDIDATES.get ⟨i, hi⟩ = nearestRegion lat lng ∧
      ∀ j, ∀ hj : j < REGION_CANDIDATES.length, j < i →
        regionDist lat lng (nearestRegion lat lng) <
          regionDist lat lng (REGION_CANDIDATES.get ⟨j, hj⟩) := by
  rcases nearestGo_first lat lng REGION_CANDIDATES FALLBACK_REGION ⊤ with
    ⟨_, hall⟩ | ⟨i, hi, hget, _, hprev⟩
  · exact absurd (hall usEastRegion usEast_mem_candidates)
      (not_le_of_lt (EReal.coe_lt_top _))
  · exact ⟨i, hi, hget, hprev⟩

lemma nearestRegion_min (lat lng : ℝ) :
    ∀ r ∈ REGION_CANDIDATES,
      regionDist lat lng (nearestRegion lat lng) ≤ regionDist lat lng r :=
  (nearestGo_min lat lng REGION_CANDIDATES FALLBACK_REGION ⊤ le_top).2

lemma nearestRegion_mem (lat lng : ℝ) : nearestRegion lat lng ∈ REGION_CANDIDATES := by
  rcases nearestRegion_first lat lng with ⟨i, hi, hget, _⟩
  rw [← hget]
  exact List.get_mem _ _ _

lemma candidates_pairwise_pos :
    ∀ x ∈ REGION_CANDIDATES, ∀ y ∈ REGION_CANDIDATES, x ≠ y →
      0 < haversineDistance x.lat x.lng y.lat y.lng := by
  intro x hx y hy hne
  rw [region_candidates_eq] at hx hy
  fin_cases hx <;> fin_cases hy <;>
    first
      | exact absurd rfl hne
      | (apply haversine_pos <;>
          norm_num [usEastRegion, usWestRegion, euWestRegion, euCentralRegion,
            asiaPacificRegion, asiaEastRegion, southAmericaRegion, oceaniaRegion,
            africaRegion])

/-! ### Lemmas about the timezone matcher loop -/

lemma matchLoop_skip (m : Matcher) (rest : List Matcher) (tz : String)
    (hm : m.test tz = true)
    (hnone : REGION_CANDIDATES.find? (fun item => item.id == m.regionId) = none) :
    matchLoop (m :: rest) tz = matchLoop rest tz := by
  simp only [matchLoop, hm, if_true, hnone]

lemma find?_congr_pred {α : Type} (p q : α → Bool) (l : List α)
    (h : ∀ a ∈ l, p a = q a) : l.find? p = l.find? q := by
  induction l with
  | nil => rfl
  | cons a as ih =>
    rw [List.find?_cons, List.find?_cons, h a (List.mem_cons_self a as)]
    cases q a with
    | true => rfl
    | false => exact ih (fun b hb => h b (List.mem_cons_of_mem a hb))

lemma matchLoop_eq_find (ms : List Matcher) (tz : String) :
    matchLoop ms tz =
      (ms.find? (fun m => m.test tz &&
        (REGION_CANDIDATES.find? (fun item => item.id == m.regionId)).isSome)).bind
        (fun m => REGION_CANDIDATES.find? (fun item => item.id == m.regionId)) := by
  induction ms with
  | nil => rfl
  | cons m rest ih =>
    cases ht : m.test tz with
    | false =>
      rw [List.find?_cons_of_neg _ (by simp [ht])]
      simp only [matchLoop, ht, Bool.false_eq_true, if_false]
      exact ih
    | true =>
      cases hfind : REGION_CANDIDATES.find? (fun item => item.id == m.regionId) with
      | some region =>
        rw [List.find?_cons_of_pos _ (by simp [ht, hfind])]
        simp [matchLoop, ht, hfind]
      | none =>
        rw [matchLoop_skip m rest tz ht hfind, ih,
          List.find?_cons_of_neg _ (by simp [hfind])]

lemma matchLoop_eq_find_all (ms : List Matcher) (tz : String)
    (h : ∀ m ∈ ms,
      (REGION_CANDIDATES.find? (fun item => item.id == m.regionId)).isSome = true) :
    matchLoop ms tz =
      (ms.find? (fun m => m.test tz)).bind
        (fun m => REGION_CANDIDATES.find? (fun item => item.id == m.regionId)) := by
  rw [matchLoop_eq_find]
  congr 1
  apply find?_congr_pred
  intro m hm
  rw [h m hm, Bool.and_true]

lemma matchLoop_mem (ms : List Matcher) (tz : String) (r : GeoRegionConfig)
    (h : matchLoop ms tz = some r) : r ∈ REGION_CANDIDATES := by
  induction ms with
  | nil => exact absurd h (by simp [matchLoop])
  | cons m rest ih =>
    cases ht : m.test tz with
    | false =>
      simp only [matchLoop, ht, Bool.false_eq_true, if_false] at h
      exact ih h
    | true =>
      cases hfind : REGION_CANDIDATES.find? (fun item => item.id == m.regionId) with
      | some region =>
        simp only [matchLoop, ht, if_true, hfind] at h
        rw [← Option.some_inj.mp h]
        exact List.mem_of_find?_eq_some hfind
      | none =>
        rw [matchLoop_skip m rest tz ht hfind] at h
        exact ih h

lemma matchers_all_ids_present :
    ∀ m ∈ matchers,
      (REGION_CANDIDATES.find? (fun item => item.id == m.regionId)).isSome = true := by
  intro m hm
  fin_cases hm <;> rfl

/-! ### Lemmas about the reputation model -/

lemma recordOutcome_bounds (s : ℚ) (h0 : 0 ≤ s) (h1 : s ≤ 1) (o : TransferOutcome) :
    0 ≤ recordOutcome s o ∧ recordOutcome s o ≤ 1 := by
  cases o <;> refine ⟨?_, ?_⟩ <;> simp only [recordOutcome] <;> linarith

lemma foldl_record_bounds (evs : List TransferOutcome) :
    ∀ s : ℚ, 0 ≤ s → s ≤ 1 →
      0 ≤ evs.foldl recordOutcome s ∧ evs.foldl recordOutcome s ≤ 1 := by
  induction evs with
  | nil => intro s h0 h1; exact ⟨h0, h1⟩
  | cons o rest ih =>
    intro s h0 h1
    rw [List.foldl_cons]
    obtain ⟨g0, g1⟩ := recordOutcome_bounds s h0 h1 o
    exact ih (recordOutcome s o) g0 g1

lemma success_step_lt (s : ℚ) (h : s < 1) :
    s < recordOutcome s TransferOutcome.success := by
  simp only [recordOutcome]; linarith

lemma success_step_lt_one (s : ℚ) (h : s < 1) :
    recordOutcome s TransferOutcome.success < 1 := by
  simp only [recordOutcome]; linarith

lemma failure_step_lt (s : ℚ) (h : 0 < s) :
    recordOutcome s TransferOutcome.failure < s := by
  simp only [recordOutcome]; linarith

lemma failure_step_pos (s : ℚ) (h : 0 < s) :
    0 < recordOutcome s TransferOutcome.failure := by
  simp only [recordOutcome]; linarith

lemma foldl_success_lt_one (n : ℕ) :
    ∀ s : ℚ, s < 1 →
      (List.replicate n TransferOutcome.success).foldl recordOutcome s < 1 := by
  induction n with
  | zero => intro s h; exact h
  | succ k ih =>
    intro s h
    rw [List.replicate_succ, List.foldl_cons]
    exact ih _ (success_step_lt_one s h)

lemma foldl_failure_pos (n : ℕ) :
    ∀ s : ℚ, 0 < s →
      (List.replicate n TransferOutcome.failure).foldl recordOutcome s > 0 := by
  induction n with
  | zero => intro s h; exact h
  | succ k ih =>
    intro s h
    rw [List.replicate_succ, List.foldl_cons]
    exact ih _ (failure_step_pos s h)

/-! ### Lemmas about candidate ranking in the coordinator model -/

lemma pickBetter_fold_some (rep : String → ℚ) (l : List String) :
    ∀ b : String, ∃ q, l.foldl (pickBetter rep) (some b) = some q := by
  induction l with
  | nil => intro b; exact ⟨b, rfl⟩
  | cons c rest ih =>
    intro b
    rw [List.foldl_cons]
    simp only [pickBetter]
    by_cases h : rep b < rep c
    · rw [if_pos h]; exact ih c
    · rw [if_neg h]; exact ih b

lemma pickBetter_fold_acc_le (rep : String → ℚ) (l : List String) :
    ∀ b r : String, l.foldl (pickBetter rep) (some b) = some r → rep b ≤ rep r := by
  induction l with
  | nil =>
    intro b r h
    rw [List.foldl_nil] at h
    rw [Option.some_inj.mp h]
  | cons c rest ih =>
    intro b r h
    rw [List.foldl_cons] at h
    simp only [pickBetter] at h
    by_cases hb : rep b < rep c
    · rw [if_pos hb] at h
      exact le_trans (le_of_lt hb) (ih c r h)
    · rw [if_neg hb] at h
      exact ih b r h

lemma pickBetter_fold_mem_le (rep : String → ℚ) (l : List String) :
    ∀ (acc : Option String) (q r : String), q ∈ l →
      l.foldl (pickBetter rep) acc = some r → rep q ≤ rep r := by
  induction l with
  | nil => intro acc q r hq; exact absurd hq (List.not_mem_nil q)
  | cons c rest ih =>
    intro acc q r hq h
    rw [List.foldl_cons] at h
    rcases List.mem_cons.mp hq with hqc | hqrest
    · subst hqc
      cases acc with
      | none =>
        simp only [pickBetter] at h
        exact pickBetter_fold_acc_le rep rest q r h
      | some b =>
        simp only [pickBetter] at h
        by_cases hb : rep b < rep q
        · rw [if_pos hb] at h
          exact pickBetter_fold_acc_le rep rest q r h
        · rw [if_neg hb] at h
          exact le_trans (le_of_not_lt hb) (pickBetter_fold_acc_le rep rest b r h)
    · exact ih _ q r hqrest h

lemma selectBest_max (rep : String → ℚ) (peers : List String) (q r : String)
    (hq : q ∈ peers) (h : selectBest rep peers = some r) : rep q ≤ rep r :=
  pickBetter_fold_mem_le rep peers none q r hq h

lemma selectBest_of_ne_nil (rep : String → ℚ) (peers : List String) (h : peers ≠ []) :
    ∃ q, selectBest rep peers = some q := by
  cases peers with
  | nil => exact absurd rfl h
  | cons c rest =>
    unfold selectBest
    rw [List.foldl_cons]
    simp only [pickBetter]
    exact pickBetter_fold_some rep rest c

/-! ### Small list helpers -/

lemma getElem?_set_self_eq {α : Type} (l : List α) (i : ℕ) (a : α) (h : i < l.length) :
    (l.set i a)[i]? = some a := by
  induction l generalizing i with
  | nil => exact absurd h (by simp)
  | cons c rest ih =>
    cases i with
    | zero => simp [List.set]
    | succ k =>
      simp only [List.set]
      have hk : k < rest.length := Nat.lt_of_succ_lt_succ (by simpa using h)
      simpa using ih k hk

lemma candidates_id_ne_unknown :
    ∀ r ∈ REGION_CANDIDATES, r.id ≠ UNKNOWN_REGION_ID := by
  intro r hr
  rw [region_candidates_eq] at hr
  fin_cases hr <;> decide

/-! ### Claim theorems -/

/-- C1: `inferRegionFromTimezone` evaluates the ordered matcher table against
the lowercased timezone identifier and returns the region of the first rule
whose pattern matches (every rule's region id is present in the candidate
catalogue, so the first pattern match decides); if no rule matches it returns
`none`. -/
theorem timezone_lookup_first_match :
    (∀ tz : String, inferRegionFromTimezone tz =
      (matchers.find? (fun m => m.test (lowerStr tz))).bind
        (fun m => REGION_CANDIDATES.find? (fun item => item.id == m.regionId))) ∧
    (∀ tz : String, matchers.find? (fun m => m.test (lowerStr tz)) = none →
      inferRegionFromTimezone tz = none) := by
  have key : ∀ tz : String, inferRegionFromTimezone tz =
      (matchers.find? (fun m => m.test (lowerStr tz))).bind
        (fun m => REGION_CANDIDATES.find? (fun item => item.id == m.regionId)) :=
    fun tz => matchLoop_eq_find_all matchers (lowerStr tz) matchers_all_ids_present
  refine ⟨key, ?_⟩
  intro tz h
  rw [key tz, h]
  rfl

/-- C1 witness: the characterization evaluated at a concrete identifier. -/
theorem timezone_lookup_first_match_witness :
    inferRegionFromTimezone "Europe/Paris" =
      (matchers.find? (fun m => m.test (lowerStr "Europe/Paris"))).bind
        (fun m => REGION_CANDIDATES.find? (fun item => item.id == m.regionId)) :=
  timezone_lookup_first_match.1 "Europe/Paris"

/-- C2: every South-American city identifier of the specific South-America
rule resolves to the South-America region and never to the generic Americas
catch-all region (`usEast`); moreover any input matching the South-America
pattern list can never resolve to `usEast`; and every specific East-Asian
city identifier resolves to the East-Asia region even though it also matches
the broader `asia/` catch-all appearing later in rule order. -/
theorem rule_ordering_override :
    (∀ tz ∈ southAmericaIds, inferRegionFromTimezone tz = some southAmericaRegion ∧
      southAmericaRegion.id ≠ "usEast") ∧
    (∀ tz : String, testAny southAmericaPats (lowerStr tz) = true →
      ∀ r : GeoRegionConfig, inferRegionFromTimezone tz = some r → r.id ≠ "usEast") ∧
    (∀ tz ∈ asiaEastIds, inferRegionFromTimezone tz = some asiaEastRegion ∧
      testAny ["asia/"] (lowerStr tz) = true) := by
  refine ⟨?_, ?_, ?_⟩
  · intro tz htz
    fin_cases htz <;> exact ⟨rfl, by decide⟩
  · intro tz hsa r hr
    have hstep : ∀ (m : Matcher) (rest : List Matcher) (L : String) (region : GeoRegionConfig),
        m.test L = true →
        REGION_CANDIDATES.find? (fun item => item.id == m.regionId) = some region →
        matchLoop (m :: rest) L = some region := by
      intro m rest L region hm hf
      simp only [matchLoop, hm, if_true, hf]
    have hskip : ∀ (m : Matcher) (rest : List Matcher) (L : String), m.test L = false →
        matchLoop (m :: rest) L = matchLoop rest L := by
      intro m rest L hm
      simp only [matchLoop, hm, Bool.false_eq_true, if_false]
    have hm2 : matchers = (⟨testAny usWestPats, "usWest"⟩ : Matcher) ::
        (⟨testAny southAmericaPats, "southAmerica"⟩ : Matcher) :: List.drop 2 matchers := rfl
    have hres : inferRegionFromTimezone tz = some usWestRegion ∨
        inferRegionFromTimezone tz = some southAmericaRegion := by
      cases h1 : testAny usWestPats (lowerStr tz) with
      | true =>
        left
        show matchLoop matchers (lowerStr tz) = some usWestRegion
        rw [hm2]
        exact hstep _ _ _ _ h1 rfl
      | false =>
        right
        show matchLoop matchers (lowerStr tz) = some southAmericaRegion
        rw [hm2, hskip _ _ _ h1]
        exact hstep _ _ _ _ hsa rfl
    rcases hres with h | h
    · rw [h] at hr
      rw [← Option.some_inj.mp hr]
      decide
    · rw [h] at hr
      rw [← Option.some_inj.mp hr]
      decide
  · intro tz htz
    fin_cases htz <;> exact ⟨rfl, rfl⟩

/-- C2 witness: the override behaviour at concrete city identifiers. -/
theorem rule_ordering_override_witness :
    (inferRegionFromTimezone "America/Santiago" = some southAmericaRegion ∧
      southAmericaRegion.id ≠ "usEast") ∧
    (inferRegionFromTimezone "Asia/Tokyo" = some asiaEastRegion ∧
      testAny ["asia/"] (lowerStr "Asia/Tokyo") = true) :=
  ⟨rule_ordering_override.1 "America/Santiago" (by decide),
   rule_ordering_override.2.2 "Asia/Tokyo" (by decide)⟩

/-- C3: `nearestRegion` returns the candidate region (the catalogue without
the unknown sentinel) whose reference point has minimal haversine distance to
the input coordinate, and on equal minimal distances the candidate earliest
in catalogue order wins: every strictly earlier candidate is strictly
farther. -/
theorem nearest_region_argmin :
    ∀ lat lng : ℝ, ∃ i, ∃ hi : i < REGION_CANDIDATES.length,
      REGION_CANDIDATES.get ⟨i, hi⟩ = nearestRegion lat lng ∧
      (∀ r ∈ REGION_CANDIDATES,
        haversineDistance lat lng (nearestRegion lat lng).lat (nearestRegion lat lng).lng ≤
          haversineDistance lat lng r.lat r.lng) ∧
      (∀ j, ∀ hj : j < REGION_CANDIDATES.length, j < i →
        haversineDistance lat lng (nearestRegion lat lng).lat (nearestRegion lat lng).lng <
          haversineDistance lat lng (REGION_CANDIDATES.get ⟨j, hj⟩).lat
            (REGION_CANDIDATES.get ⟨j, hj⟩).lng) := by
  intro lat lng
  obtain ⟨i, hi, hget, hprev⟩ := nearestRegion_first lat lng
  refine ⟨i, hi, hget, ?_, ?_⟩
  · intro r hr
    exact EReal.coe_le_coe_iff.mp (nearestRegion_min lat lng r hr)
  · intro j hj hji
    exact EReal.coe_lt_coe_iff.mp (hprev j hj hji)

/-- C3 witness: the argmin property evaluated at the origin coordinate. -/
theorem nearest_region_argmin_witness :
    ∃ i, ∃ hi : i < REGION_CANDIDATES.length,
      REGION_CANDIDATES.get ⟨i, hi⟩ = nearestRegion 0 0 ∧
      (∀ r ∈ REGION_CANDIDATES,
        haversineDistance 0 0 (nearestRegion 0 0).lat (nearestRegion 0 0).lng ≤
          haversineDistance 0 0 r.lat r.lng) ∧
      (∀ j, ∀ hj : j < REGION_CANDIDATES.length, j < i →
        haversineDistance 0 0 (nearestRegion 0 0).lat (nearestRegion 0 0).lng <
          haversineDistance 0 0 (REGION_CANDIDATES.get ⟨j, hj⟩).lat
            (REGION_CANDIDATES.get ⟨j, hj⟩).lng) :=
  nearest_region_argmin 0 0

/-- C4: `calculateRegionDistance` is symmetric in its two regions and is
exactly zero on the diagonal (the real-number model of the floating-point
computation makes the tolerance exact). -/
theorem region_distance_symm_diag :
    ∀ A B : GeoRegionConfig,
      calculateRegionDistance A B = calculateRegionDistance B A ∧
      calculateRegionDistance A A = 0 := by
  intro A B
  constructor
  · unfold calculateRegionDistance
    exact haversine_symm A.lat A.lng B.lat B.lng
  · unfold calculateRegionDistance
    exact haversine_self A.lat A.lng

/-- C4 witness: symmetry and diagonal evaluated at concrete catalogue
regions. -/
theorem region_distance_symm_diag_witness :
    calculateRegionDistance usEastRegion usWestRegion =
      calculateRegionDistance usWestRegion usEastRegion ∧
    calculateRegionDistance usEastRegion usEastRegion = 0 :=
  region_distance_symm_diag usEastRegion usWestRegion

/-- C5: for the reference coordinate of any non-sentinel catalogue region,
`nearestRegion` returns that region itself. -/
theorem nearest_region_fixed_point :
    ∀ r ∈ REGION_CANDIDATES, nearestRegion r.lat r.lng = r := by
  intro r hr
  have hmin := nearestRegion_min r.lat r.lng r hr
  unfold regionDist at hmin
  rw [haversine_self] at hmin
  have hle : haversineDistance r.lat r.lng (nearestRegion r.lat r.lng).lat
      (nearestRegion r.lat r.lng).lng ≤ 0 := by
    exact_mod_cast EReal.coe_le_coe_iff.mp hmin
  by_cases heq : nearestRegion r.lat r.lng = r
  · exact heq
  · have hpos := candidates_pairwise_pos r hr (nearestRegion r.lat r.lng)
      (nearestRegion_mem r.lat r.lng) (fun h => heq h.symm)
    linarith

/-- C5 witness: the fixed-point property at the US East reference
coordinate. -/
theorem nearest_region_fixed_point_witness :
    nearestRegion usEastRegion.lat usEastRegion.lng = usEastRegion :=
  nearest_region_fixed_point usEastRegion usEast_mem_candidates

/-- C6: over the spec-modelled reputation store, the score stays in `[0,1]`
after any finite sequence of recorded outcomes, repeated successes strictly
increase it while staying below 1, and repeated failures strictly decrease it
while staying above 0. -/
theorem reputation_score_invariant :
    (∀ evs : List TransferOutcome, 0 ≤ runOutcomes evs ∧ runOutcomes evs ≤ 1) ∧
    (∀ n : ℕ, runOutcomes (List.replicate n TransferOutcome.success) <
      runOutcomes (List.replicate (n + 1) TransferOutcome.success)) ∧
    (∀ n : ℕ, runOutcomes (List.replicate n TransferOutcome.success) < 1) ∧
    (∀ n : ℕ, runOutcomes (List.replicate (n + 1) TransferOutcome.failure) <
      runOutcomes (List.replicate n TransferOutcome.failure)) ∧
    (∀ n : ℕ, 0 < runOutcomes (List.replicate n TransferOutcome.failure)) := by
  have hhalf0 : (0 : ℚ) ≤ NEUTRAL_SCORE := by norm_num [NEUTRAL_SCORE]
  have hhalf1 : NEUTRAL_SCORE ≤ 1 := by norm_num [NEUTRAL_SCORE]
  have hhalflt : NEUTRAL_SCORE < 1 := by norm_num [NEUTRAL_SCORE]
  have hhalfpos : (0 : ℚ) < NEUTRAL_SCORE := by norm_num [NEUTRAL_SCORE]
  refine ⟨?_, ?_, ?_, ?_, ?_⟩
  · intro evs
    exact foldl_record_bounds evs NEUTRAL_SCORE hhalf0 hhalf1
  · intro n
    unfold runOutcomes
    rw [List.replicate_succ', List.foldl_append, List.foldl_cons, List.foldl_nil]
    exact success_step_lt _ (foldl_success_lt_one n NEUTRAL_SCORE hhalflt)
  · intro n
    exact foldl_success_lt_one n NEUTRAL_SCORE hhalflt
  · intro n
    unfold runOutcomes
    rw [List.replicate_succ', List.foldl_append, List.foldl_cons, List.foldl_nil]
    exact failure_step_lt _ (foldl_failure_pos n NEUTRAL_SCORE hhalfpos)
  · intro n
    exact foldl_failure_pos n NEUTRAL_SCORE hhalfpos

/-- C6 witness: bounds and strict movement at concrete event sequences. -/
theorem reputation_score_invariant_witness :
    (0 ≤ runOutcomes [TransferOutcome.success, TransferOutcome.timeout] ∧
      runOutcomes [TransferOutcome.success, TransferOutcome.timeout] ≤ 1) ∧
    runOutcomes (List.replicate 2 TransferOutcome.success) <
      runOutcomes (List.replicate 3 TransferOutcome.success) :=
  ⟨reputation_score_invariant.1 [TransferOutcome.success, TransferOutcome.timeout],
   reputation_score_invariant.2.1 2⟩

/-- C7: over the spec-modelled rendezvous relay, a directed message is
delivered exactly to the connected clients whose id equals its `to` field (so
to no other client), and a broadcast message is delivered exactly to the
connected clients other than the sender (never echoed back). -/
theorem rendezvous_delivery_scoping :
    (∀ (st : ServerState) (sender dest ty data c : String),
      c ∈ deliveryTargets st sender (ClientMsg.directed dest ty data) ↔
        (c ∈ st.clients ∧ c = dest)) ∧
    (∀ (st : ServerState) (sender ty payload c : String),
      c ∈ deliveryTargets st sender (ClientMsg.broadcast ty payload) ↔
        (c ∈ st.clients ∧ c ≠ sender)) := by
  refine ⟨?_, ?_⟩
  · intro st sender dest ty data c
    simp [deliveryTargets, List.mem_filter]
  · intro st sender ty payload c
    simp [deliveryTargets, List.mem_filter]

/-- C7 witness: delivery scoping on a concrete two-client server state. -/
theorem rendezvous_delivery_scoping_witness :
    ("b" ∈ deliveryTargets ⟨["a", "b"]⟩ "a" (ClientMsg.directed "b" "offer" "x") ↔
      ("b" ∈ ["a", "b"] ∧ "b" = "b")) ∧
    ("a" ∈ deliveryTargets ⟨["a", "b"]⟩ "a" (ClientMsg.broadcast "hello" "y") ↔
      ("a" ∈ ["a", "b"] ∧ "a" ≠ "a")) :=
  ⟨rendezvous_delivery_scoping.1 ⟨["a", "b"]⟩ "a" "b" "offer" "x" "b",
   rendezvous_delivery_scoping.2 ⟨["a", "b"]⟩ "a" "hello" "y" "a"⟩

/-- C8: over the spec-modelled coordinator, an in-flight chunk whose deadline
has elapsed returns to `Pending` and its assignee's reputation receives a
`Timeout` record; the next assignment pass assigns every pending chunk to the
highest-ranked eligible candidate; a peer is never selected when a
strictly better-ranked eligible alternative exists; and the timeout penalty
is strictly smaller than the failure penalty for any positive score. -/
theorem coordinator_timeout_handling :
    (∀ (st : CoordState) (i now : ℕ) (p : String) (t0 : ℕ),
      st.chunks[i]? = some (ChunkStatus.inFlight p t0) → t0 + st.deadline ≤ now →
      (onChunkTimeout st i now).chunks[i]? = some ChunkStatus.pending ∧
      (onChunkTimeout st i now).rep p = recordOutcome (st.rep p) TransferOutcome.timeout) ∧
    (∀ (st : CoordState) (eligible : List String) (now i : ℕ),
      st.chunks[i]? = some ChunkStatus.pending → eligible ≠ [] →
      ∃ q, selectBest st.rep eligible = some q ∧
        (assignPass st eligible now).chunks[i]? = some (ChunkStatus.inFlight q now)) ∧
    (∀ (rep : String → ℚ) (peers : List String) (p q : String),
      q ∈ peers → rep p < rep q → selectBest rep peers ≠ some p) ∧
    (∀ s : ℚ, 0 < s →
      s - recordOutcome s TransferOutcome.timeout <
        s - recordOutcome s TransferOutcome.failure) := by
  refine ⟨?_, ?_, ?_, ?_⟩
  · intro st i now p t0 h hd
    obtain ⟨hlen, _⟩ := List.getElem?_eq_some.mp h
    constructor
    · simp only [onChunkTimeout, h, hd, if_true]
      exact getElem?_set_self_eq st.chunks i ChunkStatus.pending hlen
    · simp only [onChunkTimeout, h, hd, if_true]
  · intro st eligible now i h hne
    obtain ⟨q, hq⟩ := selectBest_of_ne_nil st.rep eligible hne
    refine ⟨q, hq, ?_⟩
    simp only [assignPass, List.getElem?_map, h, Option.map_some']
    simp [hq]
  · intro rep peers p q hq hlt hcontra
    exact absurd (selectBest_max rep peers q p hq hcontra) (not_le_of_lt hlt)
  · intro s hs
    simp only [recordOutcome]
    linarith

/-- C8 witness: the timeout transition on a concrete one-chunk coordinator
state. -/
theorem coordinator_timeout_handling_witness :
    (onChunkTimeout ⟨[ChunkStatus.inFlight "p1" 0], fun _ => NEUTRAL_SCORE, 5⟩ 0 10).chunks[0]? =
      some ChunkStatus.pending ∧
    (onChunkTimeout ⟨[ChunkStatus.inFlight "p1" 0], fun _ => NEUTRAL_SCORE, 5⟩ 0 10).rep "p1" =
      recordOutcome NEUTRAL_SCORE TransferOutcome.timeout :=
  coordinator_timeout_handling.1 ⟨[ChunkStatus.inFlight "p1" 0], fun _ => NEUTRAL_SCORE, 5⟩
    0 10 "p1" 0 rfl (by norm_num)

/-- C9: `detectUserRegion` always yields a non-sentinel catalogue region
(never the unknown sentinel, never a failure); with no browser fix and no
matching timezone rule it yields the designated fallback region (the
catalogue entry with id `usEast`) tagged with source `fallback`. -/
theorem detect_region_total_fallback :
    (∀ (coords : Option (ℝ × ℝ)) (tzId : Option String),
      (detectUserRegion coords tzId).region ∈ REGION_CANDIDATES ∧
      (detectUserRegion coords tzId).region.id ≠ UNKNOWN_REGION_ID) ∧
    (detectUserRegion none none = ⟨FALLBACK_REGION, GeolocationSource.fallback⟩) ∧
    (∀ tz : String, inferRegionFromTimezone tz = none →
      detectUserRegion none (some tz) = ⟨FALLBACK_REGION, GeolocationSource.fallback⟩) ∧
    FALLBACK_REGION = usEastRegion ∧ usEastRegion.id = "usEast" := by
  have hmem : ∀ (coords : Option (ℝ × ℝ)) (tzId : Option String),
      (detectUserRegion coords tzId).region ∈ REGION_CANDIDATES := by
    intro coords tzId
    cases coords with
    | some c =>
      rcases c with ⟨lat, lng⟩
      simp only [detectUserRegion]
      exact nearestRegion_mem lat lng
    | none =>
      cases tzId with
      | none =>
        simp only [detectUserRegion]
        rw [fallback_eq]
        exact usEast_mem_candidates
      | some tz =>
        cases h : inferRegionFromTimezone tz with
        | some r =>
          simp only [detectUserRegion, h]
          exact matchLoop_mem matchers (lowerStr tz) r h
        | none =>
          simp only [detectUserRegion, h]
          rw [fallback_eq]
          exact usEast_mem_candidates
  refine ⟨fun coords tzId =>
    ⟨hmem coords tzId, candidates_id_ne_unknown _ (hmem coords tzId)⟩, rfl, ?_, rfl, rfl⟩
  intro tz h
  simp only [detectUserRegion, h]

/-- C9 witness: the fallback result on an unmatched timezone identifier. -/
theorem detect_region_total_fallback_witness :
    detectUserRegion none (some "Mars/Olympus") =
      ⟨FALLBACK_REGION, GeolocationSource.fallback⟩ :=
  detect_region_total_fallback.2.2.1 "Mars/Olympus" rfl

/-- C10: the matcher loop of `inferRegionFromTimezone` skips a matching rule
whose region id is absent from the candidate catalogue and keeps evaluating
the subsequent rules; in general it returns the region of the first matching
rule whose region id exists in the catalogue, or `none` when no such rule
exists. -/
theorem matcher_fall_through :
    (∀ (m : Matcher) (rest : List Matcher) (tz : String),
      m.test tz = true →
      REGION_CANDIDATES.find? (fun item => item.id == m.regionId) = none →
      matchLoop (m :: rest) tz = matchLoop rest tz) ∧
    (∀ (ms : List Matcher) (tz : String),
      matchLoop ms tz =
        (ms.find? (fun m => m.test tz &&
          (REGION_CANDIDATES.find? (fun item => item.id == m.regionId)).isSome)).bind
          (fun m => REGION_CANDIDATES.find? (fun item => item.id == m.regionId))) ∧
    (∀ tz : String, inferRegionFromTimezone tz = matchLoop matchers (lowerStr tz)) :=
  ⟨matchLoop_skip, matchLoop_eq_find, fun _ => rfl⟩

/-- C10 witness: a matching rule with an unknown region id falls through. -/
theorem matcher_fall_through_witness :
    matchLoop [⟨fun _ => true, "nowhere"⟩] "asia/tokyo" = matchLoop [] "asia/tokyo" :=
  matcher_fall_through.1 ⟨fun _ => true, "nowhere"⟩ [] "asia/tokyo" rfl rfl

end Chiral
